import Mathlib

/-!
Shallow embedding of the GPflow dispatch core:
  src/gpflow/expectations/misc.py   (the `expectation` handlers registered there)
  src/gpflow/conditionals/conditionals.py  (the `conditional` entry point and its
  two registered variants)

Machine reals are modelled as Rat; tensors as nested lists.  The multiple-dispatch
registry itself (gpflow/expectations/dispatch.py and the Register utility) is not
under src/, so the resolver below is modelled from the spec (section 4.1), with
subclass-based matching as documented by the guard handler's docstring in
src/gpflow/expectations/misc.py (Identity is a subclass of the Linear mean
function, so a Linear-slot pattern matches an Identity argument unless a more
specific entry exists).  Recursion through the dispatch table is modelled with
explicit fuel: `expectation fuel ...` returns `Err.fuelOut` when the recursion
depth exceeds the fuel, for every fuel, exactly when the real call does not
terminate.
-/

namespace GPflow

/-- Runtime type tags of the Python classes that occur as dispatch keys in
src/gpflow/expectations/misc.py and src/gpflow/conditionals/conditionals.py. -/
inductive Ty
  | gaussianT
  | diagGaussianT
  | markovGaussianT
  | identityT
  | constantT
  | linearMeanT
  | meanFunctionT
  | linearKernT
  | kernelT
  | inducingPointsT
  | inducingFeatureT
  | noneT
  | ndarrayT
  | tensorT
  | objectT
  deriving DecidableEq, BEq

/-- Linearized ancestor chains (Python method-resolution order, ending at
`object`) of each class tag: mfn.Identity < mfn.Linear < mfn.MeanFunction,
mfn.Constant < mfn.MeanFunction, kernels.Linear < kernels.Kernel,
InducingPoints < InducingFeature; the distributions, NoneType, np.ndarray and
tf.Tensor are unrelated leaf classes. -/
def ancestors : Ty → List Ty
  | .gaussianT => [.gaussianT, .objectT]
  | .diagGaussianT => [.diagGaussianT, .objectT]
  | .markovGaussianT => [.markovGaussianT, .objectT]
  | .identityT => [.identityT, .linearMeanT, .meanFunctionT, .objectT]
  | .constantT => [.constantT, .meanFunctionT, .objectT]
  | .linearMeanT => [.linearMeanT, .meanFunctionT, .objectT]
  | .meanFunctionT => [.meanFunctionT, .objectT]
  | .linearKernT => [.linearKernT, .kernelT, .objectT]
  | .kernelT => [.kernelT, .objectT]
  | .inducingPointsT => [.inducingPointsT, .inducingFeatureT, .objectT]
  | .inducingFeatureT => [.inducingFeatureT, .objectT]
  | .noneT => [.noneT, .objectT]
  | .ndarrayT => [.ndarrayT, .objectT]
  | .tensorT => [.tensorT, .objectT]
  | .objectT => [.objectT]

/-- Subclass test: an argument of runtime class `a` matches a pattern slot `s`
iff `s` is an ancestor of `a` (Python `isinstance`). -/
def subTy (a s : Ty) : Bool := (ancestors a).contains s

/-- Distance from a class to one of its ancestors along the linearization;
used to order matching entries by specificity (0 = exact match). -/
def rankTy (a s : Ty) : Nat := (ancestors a).indexOf s

/-- Modelled from the spec (section 4.1): a registered pattern matches an
argument-type tuple when every slot is an ancestor of (or equal to) the
corresponding argument class.  Registrations on a set of types are expanded
into one catalog entry per element before matching. -/
def matchesKey (args key : List Ty) : Bool :=
  args.length == key.length && (List.zip args key).all fun p => subTy p.1 p.2

/-- Lexicographic order on per-slot specificity ranks. -/
def ranksLt : List Nat → List Nat → Bool
  | [], _ => false
  | _ :: _, [] => false
  | a :: as', b :: bs' => a < b || (a == b && ranksLt as' bs')

/-- Modelled from the spec (section 4.1): specificity score of a matching
entry, ordered first by the number of wildcard (`object`) slots, then by the
left-to-right ancestor distances of each slot from the argument class
(exact-type matches preferred over ancestor matches). -/
def scoreLt (args k1 k2 : List Ty) : Bool :=
  let w1 := k1.count .objectT
  let w2 := k2.count .objectT
  w1 < w2 || (w1 == w2 &&
    ranksLt ((List.zip args k1).map fun p => rankTy p.1 p.2)
            ((List.zip args k2).map fun p => rankTy p.1 p.2))

/-- Modelled from the spec (section 4.1): resolve returns the handler of the
most specific matching entry (earliest registered on ties), or nothing when no
entry matches the argument-type tuple. -/
def resolve {α : Type} (cat : List (List Ty × α)) (args : List Ty) : Option α :=
  match cat.filter (fun e => matchesKey args e.1) with
  | [] => Option.none
  | e0 :: rest =>
      some (rest.foldl
        (fun b e => if scoreLt args e.1 b.1 then e else b) e0).2

/-- Matrices are lists of rows of rationals. -/
abbrev Mat := List (List ℚ)

/-- Gaussian distribution (gpflow.probability_distributions.Gaussian):
per-point mean vectors mu with shape NxD and full per-point covariance
matrices with shape NxDxD. -/
structure GaussianD where
  mu : Mat
  cov : List Mat
  deriving DecidableEq

/-- DiagonalGaussian: per-point mean vectors NxD and per-dimension variances
NxD (diagonal covariance only). -/
structure DiagGaussianD where
  mu : Mat
  cov : Mat
  deriving DecidableEq

/-- MarkovGaussian: per-step means TxD; the covariance tensor of the Python
object has leading axis 2 (`p.cov[0]` = per-step blocks TxDxD, `p.cov[1]` =
adjacent cross-step blocks), modelled as the two lists covDiag and covCross. -/
structure MarkovGaussianD where
  mu : Mat
  covDiag : List Mat
  covCross : List Mat
  deriving DecidableEq

/-- The distribution argument of `expectation`. -/
inductive Dist
  | gaussian (g : GaussianD)
  | diagonal (d : DiagGaussianD)
  | markov (m : MarkovGaussianD)
  deriving DecidableEq

/-- Mean-function objects (gpflow.mean_functions): Identity (its input_dim
argument carries no data relevant here), Constant with value vector c,
Linear with weights A (DxQ) and bias b (Q), and an opaque other subclass of
MeanFunction identified by a number. -/
inductive MeanF
  | identity
  | constant (c : List ℚ)
  | linear (A : Mat) (b : List ℚ)
  | otherMean (n : Nat)
  deriving DecidableEq

/-- Kernel objects: the kernels.Linear class or an opaque other Kernel
subclass; the handlers in misc.py never look inside a kernel, they only
dispatch on its class and pass it along. -/
inductive Kern
  | linK (n : Nat)
  | otherK (n : Nat)
  deriving DecidableEq

/-- Inducing-feature objects: InducingPoints with its point matrix Z, or an
opaque other InducingFeature subclass. -/
inductive Feat
  | inducingPoints (Z : Mat)
  | otherFeat (n : Nat)
  deriving DecidableEq

/-- One term of an `expectation` call: absent (Python None), a mean-function
object with an optional feature, or a kernel object with an optional feature.
A bare object passed to `expectation` is the pair (object, None). -/
inductive TermV
  | absent
  | mf (m : MeanF) (f : Option Feat)
  | kf (k : Kern) (f : Option Feat)
  deriving DecidableEq

/-- Result tensors of the misc.py handlers: rank 2 (e.g. NxM) or rank 3
(e.g. NxDxM). -/
inductive Tn
  | r2 (x : Mat)
  | r3 (x : List Mat)
  deriving DecidableEq

/-- Failure modes: no catalog entry matches (DispatchError), the guard
handler's NotImplementedError, a rank mismatch, and exhaustion of the
recursion fuel (modelling non-termination). -/
inductive Err
  | dispatchError
  | notImplemented
  | shapeError
  | fuelOut
  deriving DecidableEq

def distTag : Dist → Ty
  | .gaussian _ => .gaussianT
  | .diagonal _ => .diagGaussianT
  | .markov _ => .markovGaussianT

def meanTag : MeanF → Ty
  | .identity => .identityT
  | .constant _ => .constantT
  | .linear _ _ => .linearMeanT
  | .otherMean _ => .meanFunctionT

def kernTag : Kern → Ty
  | .linK _ => .linearKernT
  | .otherK _ => .kernelT

def featTyOf : Feat → Ty
  | .inducingPoints _ => .inducingPointsT
  | .otherFeat _ => .inducingFeatureT

instance {ε α : Type} [DecidableEq ε] [DecidableEq α] : DecidableEq (Except ε α) := fun a b =>
  match a, b with
  | .ok x, .ok y => if h : x = y then isTrue (by rw [h]) else isFalse (by intro hc; cases hc; exact h rfl)
  | .error x, .error y => if h : x = y then isTrue (by rw [h]) else isFalse (by intro hc; cases hc; exact h rfl)
  | .ok _, .error _ => isFalse (by intro hc; cases hc)
  | .error _, .ok _ => isFalse (by intro hc; cases hc)

/-- Runtime class of the object slot of a term. -/
def objTag : TermV → Ty
  | .absent => .noneT
  | .mf m _ => meanTag m
  | .kf k _ => kernTag k

/-- Runtime class of the feature slot of a term. -/
def featTag : TermV → Ty
  | .absent => .noneT
  | .mf _ Option.none => .noneT
  | .mf _ (some ft) => featTyOf ft
  | .kf _ Option.none => .noneT
  | .kf _ (some ft) => featTyOf ft

/-- Dispatch key of an `expectation` call, spec section 4.5: (distribution
class, term1 object class, term1 feature class, term2 object class, term2
feature class). -/
def keyOf (p : Dist) (t1 t2 : TermV) : List Ty :=
  [distTag p, objTag t1, featTag t1, objTag t2, featTag t2]

/-- Handler identities, one per `@dispatch.expectation.register` block of
src/gpflow/expectations/misc.py, in registration order. -/
inductive HId
  | exKxzT
  | kzxMeanT
  | constMean
  | linMean
  | identityGuard
  | diagFallback
  | markovFallback
  deriving DecidableEq

/-- The expectation catalog of src/gpflow/expectations/misc.py, with each
registration on a set of types expanded into one entry per element (spec
section 4.1), in registration order. -/
def expectationCat : List (List Ty × HId) :=
  [ ([.gaussianT, .identityT, .noneT, .linearKernT, .inducingPointsT], .exKxzT),
    ([.markovGaussianT, .identityT, .noneT, .linearKernT, .inducingPointsT], .exKxzT),
    ([.gaussianT, .kernelT, .inducingFeatureT, .meanFunctionT, .noneT], .kzxMeanT),
    ([.markovGaussianT, .kernelT, .inducingFeatureT, .meanFunctionT, .noneT], .kzxMeanT),
    ([.gaussianT, .constantT, .noneT, .kernelT, .inducingPointsT], .constMean),
    ([.gaussianT, .linearMeanT, .noneT, .kernelT, .inducingPointsT], .linMean),
    ([.gaussianT, .identityT, .noneT, .kernelT, .inducingPointsT], .identityGuard),
    ([.diagGaussianT, .objectT, .inducingFeatureT, .objectT, .inducingFeatureT], .diagFallback),
    ([.diagGaussianT, .objectT, .inducingFeatureT, .objectT, .noneT], .diagFallback),
    ([.diagGaussianT, .objectT, .noneT, .objectT, .inducingFeatureT], .diagFallback),
    ([.diagGaussianT, .objectT, .noneT, .objectT, .noneT], .diagFallback),
    ([.markovGaussianT, .objectT, .inducingFeatureT, .objectT, .inducingFeatureT], .markovFallback),
    ([.markovGaussianT, .objectT, .inducingFeatureT, .objectT, .noneT], .markovFallback),
    ([.markovGaussianT, .objectT, .noneT, .objectT, .inducingFeatureT], .markovFallback),
    ([.markovGaussianT, .objectT, .noneT, .objectT, .noneT], .markovFallback) ]

def getQ (v : List ℚ) (i : Nat) : ℚ := v.getD i 0

/-- Transpose of a rectangular matrix by indexing (tf.linalg.transpose on the
last two axes of a rank-2 tensor). -/
def transposeQ (m : Mat) : Mat :=
  (List.range (m.head?.getD []).length).map fun j => m.map fun row => getQ row j

/-- tf.linalg.transpose: swap the last two axes. -/
def Tn.transposeLast2 : Tn → Tn
  | .r2 x => .r2 (transposeQ x)
  | .r3 x => .r3 (x.map transposeQ)

/-- tf.linalg.diag applied to per-point variance vectors: embed each row as a
diagonal matrix (misc.py line 101). -/
def diagMatQ (v : List ℚ) : Mat :=
  (List.range v.length).map fun i =>
    (List.range v.length).map fun j => if i = j then getQ v i else 0

def diagEmbed (cov : Mat) : List Mat := cov.map diagMatQ

def dotQ (a b : List ℚ) : ℚ := (List.zipWith (fun x y => x * y) a b).sum

/-- Matrix product for tf.linalg.matmul. -/
def matmulQ (a b : Mat) : Mat :=
  a.map fun row => (transposeQ b).map fun col => dotQ row col

def matAddQ (a b : Mat) : Mat := List.zipWith (List.zipWith (fun x y => x + y)) a b

/-- Recursive-call signature handed to each handler: the dispatcher's
`expectation` at one fuel step less. -/
abbrev ExpFn := Dist → TermV → TermV → Option Nat → Except Err Tn

/-- Handler of misc.py lines 15-27: expectation of x_n K_{x_n,Z} for a Linear
kernel, registered for ((Gaussian, MarkovGaussian), Identity, NoneType,
kernels.Linear, InducingPoints); returns the transpose of the swapped-order
expectation.  The recursive call passes no nghp (the source calls
`expectation(p, (kern, feat), mean)` with the default nghp=None). -/
def hExKxz (exp : ExpFn) (p : Dist) (mean : MeanF) (kern : Kern) (feat : Feat)
    (nghp : Option Nat) : Except Err Tn :=
  Except.map Tn.transposeLast2 (exp p (.kf kern (some feat)) (.mf mean Option.none) Option.none)

/-- Handler of misc.py lines 30-41: expectation of K_{Z,x_n} m(x_n),
registered for ((Gaussian, MarkovGaussian), Kernel, InducingFeature,
MeanFunction, NoneType); returns the transpose of the swapped-order
expectation, forwarding nghp. -/
def hKzxMean (exp : ExpFn) (p : Dist) (kern : Kern) (feat : Feat) (mean : MeanF)
    (nghp : Option Nat) : Except Err Tn :=
  Except.map Tn.transposeLast2 (exp p (.mf mean Option.none) (.kf kern (some feat)) nghp)

/-- Handler of misc.py lines 44-57: expectation of m(x_n)^T K_{x_n,Z} for a
Constant mean function: c = constant_mean(p.mu) is NxQ (each row the constant
vector), eKxz is NxM, and the result is the per-point outer product
c[..., None] * eKxz[:, None, :]. -/
def hConstMean (exp : ExpFn) (g : GaussianD) (c : List ℚ) (kern : Kern) (feat : Feat)
    (nghp : Option Nat) : Except Err Tn := do
  let cMat : Mat := g.mu.map fun _ => c
  let eKxz ← exp (.gaussian g) (.kf kern (some feat)) .absent nghp
  match eKxz with
  | .r2 e => pure (.r3 (List.zipWith
      (fun crow erow => crow.map fun ci => erow.map fun ej => ci * ej) cMat e))
  | _ => throw .shapeError

/-- Handler of misc.py lines 60-77: expectation of m(x_n)^T K_{x_n,Z} for a
Linear mean function m(x) = A^T-free form Ax+b: exKxz is NxDxM (via the
Identity mean), eKxz is NxM; the result is matmul(tile(A), exKxz,
transpose_a=True) + b[None, :, None] * eKxz[:, None, :], i.e. per point n
(A^T exKxz[n]) + outer(b, eKxz[n]). -/
def hLinMean (exp : ExpFn) (g : GaussianD) (A : Mat) (b : List ℚ) (kern : Kern)
    (feat : Feat) (nghp : Option Nat) : Except Err Tn := do
  let exKxz ← exp (.gaussian g) (.mf .identity Option.none) (.kf kern (some feat)) nghp
  let eKxz ← exp (.gaussian g) (.kf kern (some feat)) .absent nghp
  match exKxz, eKxz with
  | .r3 ex, .r2 e =>
      let eAx := ex.map fun exn => matmulQ (transposeQ A) exn
      let ebK := e.map fun en => b.map fun bi => en.map fun ej => bi * ej
      pure (.r3 (List.zipWith matAddQ eAx ebK))
  | _, _ => throw .shapeError

/-- Handler of misc.py lines 97-102: a DiagonalGaussian with no more specific
entry is converted to the full Gaussian with covariance tf.linalg.diag(p.cov)
and the expectation is retried with the identical terms and nghp. -/
def hDiagFallback (exp : ExpFn) (d : DiagGaussianD) (t1 t2 : TermV)
    (nghp : Option Nat) : Except Err Tn :=
  exp (.gaussian ⟨d.mu, diagEmbed d.cov⟩) t1 t2 nghp

/-- Handler of misc.py lines 107-123: a MarkovGaussian with no more specific
entry.  With term2 absent it retries on the plain Gaussian built from
p.mu[:-1] and p.cov[0, :-1] (all but the last step); with term1 absent it
retries on p.mu[1:] and p.cov[0, 1:] (all but the first step, the term moving
to the first position); with both terms present it re-invokes expectation on
the identical MarkovGaussian and identical terms. -/
def hMarkov (exp : ExpFn) (mg : MarkovGaussianD) (t1 t2 : TermV)
    (nghp : Option Nat) : Except Err Tn :=
  match t2 with
  | .absent => exp (.gaussian ⟨mg.mu.dropLast, mg.covDiag.dropLast⟩) t1 .absent nghp
  | _ =>
    match t1 with
    | .absent => exp (.gaussian ⟨mg.mu.drop 1, mg.covDiag.drop 1⟩) t2 .absent nghp
    | _ => exp (.markov mg) t1 t2 nghp

/-- Run the handler selected by dispatch.  The argument patterns of each
branch mirror the registered signature of the handler; a call that reaches a
handler with arguments outside its registered pattern (impossible for the
resolver above) is a shape error. -/
def runHandler (exp : ExpFn) (hid : HId) (p : Dist) (t1 t2 : TermV)
    (nghp : Option Nat) : Except Err Tn :=
  match hid with
  | .exKxzT =>
    match t1, t2 with
    | .mf m _, .kf k (some f) => hExKxz exp p m k f nghp
    | _, _ => .error .shapeError
  | .kzxMeanT =>
    match t1, t2 with
    | .kf k (some f), .mf m _ => hKzxMean exp p k f m nghp
    | _, _ => .error .shapeError
  | .constMean =>
    match p, t1, t2 with
    | .gaussian g, .mf (.constant c) _, .kf k (some f) => hConstMean exp g c k f nghp
    | _, _, _ => .error .shapeError
  | .linMean =>
    match p, t1, t2 with
    | .gaussian g, .mf (.linear A b) _, .kf k (some f) => hLinMean exp g A b k f nghp
    | _, _, _ => .error .shapeError
  | .identityGuard => .error .notImplemented
  | .diagFallback =>
    match p with
    | .diagonal d => hDiagFallback exp d t1 t2 nghp
    | _ => .error .shapeError
  | .markovFallback =>
    match p with
    | .markov mg => hMarkov exp mg t1 t2 nghp
    | _ => .error .shapeError

/-- Modelled from the spec (sections 4.5 and 4.1; the `expectation` entry
point in gpflow/expectations/expectations.py is not under src/): resolve the
handler from the runtime classes of the distribution and the two (object,
feature) terms and run it, with explicit fuel bounding the recursion depth. -/
def expectation : Nat → Dist → TermV → TermV → Option Nat → Except Err Tn
  | 0, _, _, _, _ => .error .fuelOut
  | n + 1, p, t1, t2, nghp =>
    match resolve expectationCat (keyOf p t1 t2) with
    | Option.none => .error .dispatchError
    | some hid => runHandler (expectation n) hid p t1 t2 nghp

/-- Semantic evaluation irrespective of fuel: the call yields result r at
some finite recursion depth (r itself is a proper result or a proper error,
not fuel exhaustion). -/
def Evals (p : Dist) (t1 t2 : TermV) (nghp : Option Nat) (r : Except Err Tn) : Prop :=
  r ≠ .error .fuelOut ∧ ∃ n, expectation n p t1 t2 nghp = r

/-- Realizable object-slot tags. -/
def objTags : List Ty :=
  [.noneT, .identityT, .constantT, .linearMeanT, .meanFunctionT, .linearKernT, .kernelT]

/-- Realizable feature-slot tags. -/
def featTags : List Ty := [.noneT, .inducingPointsT, .inducingFeatureT]

/-- Tensors on the conditional path: ranks 1 to 4 (variances are NxR, RxNxN,
NxRxR or NxRxNxR). -/
inductive CT
  | v (x : List ℚ)
  | m (x : Mat)
  | t3 (x : List Mat)
  | t4 (x : List (List Mat))
  deriving DecidableEq

/-- Kernel collaborator on the conditional path (spec section 6): kXX is
kernel(X) (full covariance of one point set, conditionals.py line 113), kXY
is kernel(X, Xnew) (line 114), kFlag is kernel(X, full=b) (lines 63 and 115)
returning the full matrix or only the per-point variances. -/
structure KernelC where
  kXX : Mat → Mat
  kXY : Mat → Mat → Mat
  kFlag : Mat → Bool → CT

/-- External collaborators of conditionals.py that are not under src/ (the
Conditional Engine base_conditional of gpflow/conditionals/util.py and the
Kuu/Kuf covariance dispatchers of gpflow/covariances), kept abstract and
quantified over in every theorem, together with the process-wide default
jitter (spec sections 4.2, 4.3, 6).  bc receives (Kmn, Kmm, Knn, function,
full_cov, q_sqrt, white) and returns (mean, variance). -/
structure Ext where
  bc : Mat → Mat → CT → Mat → Bool → Option CT → Bool → (Mat × CT)
  kuu : Feat → KernelC → ℚ → Mat
  kuf : Feat → KernelC → Mat → Mat
  jitter : ℚ

/-- Modelled from the spec (sections 4.3 and 6; default_jitter_eye of
gpflow/util.py is not under src/): the default jitter times the identity
matrix of the given size, i.e. jitter on the diagonal and zero elsewhere. -/
def jitterEye (j : ℚ) (n : Nat) : Mat :=
  (List.range n).map fun i => (List.range n).map fun i2 => if i = i2 then j else 0

def get3Q (t : List Mat) (a b c : Nat) : ℚ := getQ ((t.getD a []).getD b []) c

/-- Modelled from the spec (section 4.4; expand_independent_outputs of
gpflow/conditionals/util.py is not under src/): with full_output_cov false
the variance passes through unchanged (NxR or RxNxN); with full_output_cov
true an NxR variance becomes NxRxR with per-point variances on the diagonal
and exact zeros elsewhere, and an RxNxN variance becomes NxRxNxR with zero
cross-output blocks. -/
def expandIndependentOutputs (fvar : CT) (full_cov full_output_cov : Bool) : CT :=
  match full_output_cov, full_cov, fvar with
  | false, _, x => x
  | true, false, .m nr => .t3 (nr.map diagMatQ)
  | true, true, .t3 rnn =>
      .t4 ((List.range (rnn.head?.getD []).length).map fun n =>
        (List.range rnn.length).map fun r =>
          (List.range (rnn.head?.getD []).length).map fun n2 =>
            (List.range rnn.length).map fun r2 =>
              if r = r2 then get3Q rnn r n n2 else 0)
  | true, _, x => x

/-- The reference argument of `conditional`: an inducing-feature object, a
raw numpy array of reference points, or a tensorflow tensor of them. -/
inductive RefC
  | feat (ft : Feat)
  | arr (x : Mat)
  | tens (x : Mat)
  deriving DecidableEq

def refTag : RefC → Ty
  | .feat ft => featTyOf ft
  | .arr _ => .ndarrayT
  | .tens _ => .tensorT

/-- Handler identities of the conditional dispatcher. -/
inductive CId
  | featH
  | arrH
  deriving DecidableEq

/-- The conditional dispatcher's catalog (conditionals.py lines 22, 69, 70):
the feature-keyed variant for (InducingFeature, Kernel), the array-keyed
variant for (np.ndarray, Kernel) and for (tf.Tensor, Kernel).  Every entry
uses the Kernel slot itself and the kernel's runtime class is always a
subclass of Kernel, so resolution does not depend on the concrete kernel
subclass; the key is therefore modelled with the Kernel tag in that slot. -/
def conditionalCat : List (List Ty × CId) :=
  [ ([.inducingFeatureT, .kernelT], .featH),
    ([.ndarrayT, .kernelT], .arrH),
    ([.tensorT, .kernelT], .arrH) ]

/-- Feature-keyed conditional handler, conditionals.py lines 22-66:
Kmm = Kuu(feature, kernel, jitter=default_jitter()), Kmn = Kuf(feature,
kernel, Xnew), Knn = kernel(Xnew, full=full_cov); delegate to
base_conditional and apply Output-Shape Expansion to the variance only,
returning the mean unexpanded. -/
def condFeat (E : Ext) (Xnew : Mat) (ft : Feat) (k : KernelC) (f : Mat)
    (full_cov full_output_cov : Bool) (q_sqrt : Option CT) (white : Bool) : Mat × CT :=
  let Kmm := E.kuu ft k E.jitter
  let Kmn := E.kuf ft k Xnew
  let Knn := k.kFlag Xnew full_cov
  let r := E.bc Kmn Kmm Knn f full_cov q_sqrt white
  (r.1, expandIndependentOutputs r.2 full_cov full_output_cov)

/-- Array-keyed conditional handler, conditionals.py lines 69-120:
Kmm = kernel(X) + default_jitter_eye(X.shape[-2]), Kmn = kernel(X, Xnew),
Knn = kernel(Xnew, full=full_cov); delegate to base_conditional and return
mean and variance unchanged (full_output_cov is accepted but not used). -/
def condArr (E : Ext) (Xnew X : Mat) (k : KernelC) (f : Mat)
    (full_cov full_output_cov : Bool) (q_sqrt : Option CT) (white : Bool) : Mat × CT :=
  let Kmm := matAddQ (k.kXX X) (jitterEye E.jitter X.length)
  let Kmn := k.kXY X Xnew
  let Knn := k.kFlag Xnew full_cov
  E.bc Kmn Kmm Knn f full_cov q_sqrt white

/-- The `conditional` entry point, conditionals.py lines 16-19: look up the
registered handler from (type(reference), type(kernel)) via the dispatcher
and call it with all eight arguments unchanged. -/
def conditionalC (E : Ext) (Xnew : Mat) (ref : RefC) (k : KernelC) (f : Mat)
    (full_cov full_output_cov : Bool) (q_sqrt : Option CT) (white : Bool) :
    Except Err (Mat × CT) :=
  match resolve conditionalCat [refTag ref, .kernelT] with
  | Option.none => .error .dispatchError
  | some .featH =>
    match ref with
    | .feat ft => .ok (condFeat E Xnew ft k f full_cov full_output_cov q_sqrt white)
    | _ => .error .shapeError
  | some .arrH =>
    match ref with
    | .arr X => .ok (condArr E Xnew X k f full_cov full_output_cov q_sqrt white)
    | .tens X => .ok (condArr E Xnew X k f full_cov full_output_cov q_sqrt white)
    | _ => .error .shapeError

def getQ2 (a : Mat) (i j : Nat) : ℚ := getQ (a.getD i []) j

/-- Concrete instantiation of the abstract collaborators, used in closed
instances: base_conditional returns its function argument as the mean and a
fixed 1x2 variance. -/
def cexExt : Ext := ⟨fun _ _ _ f _ _ _ => (f, CT.m [[1, 2]]), fun _ _ _ => [], fun _ _ _ => [], 0⟩

/-- Concrete kernel collaborator with empty covariances. -/
def cexKern : KernelC := ⟨fun _ => [], fun _ _ => [], fun _ _ => CT.m []⟩

/-- Concrete collaborators for the array-keyed covariance witness:
base_conditional returns (Kmn, Kmm) so the delegated covariances are
observable, jitter is 3. -/
def wExt : Ext := ⟨fun kmn kmm _ _ _ _ _ => (kmn, CT.m kmm), fun _ _ _ => [], fun _ _ _ => [], 3⟩

/-- Concrete 1x1 kernel collaborator for the witness. -/
def wKern : KernelC := ⟨fun _ => [[5]], fun _ _ => [[7]], fun _ _ => CT.m [[9]]⟩

/-- State computations over an addressed mutable heap: the model in which
Python-side mutation of tensor objects would be expressible. -/
def St (σ α : Type) := σ → σ × α

def pureSt {σ α : Type} (a : α) : St σ α := fun s => (s, a)

def bindSt {σ α β : Type} (x : St σ α) (g : α → St σ β) : St σ β :=
  fun s => g (x s).2 (x s).1

/-- A state computation preserves the heap when it leaves every address
unchanged. -/
def Preserves {σ α : Type} (x : St σ α) : Prop := ∀ h, (x h).1 = h

/-- Heap of tensors on the conditional path. -/
def HeapC := Nat → CT

def readC (i : Nat) : St HeapC CT := fun h => (h, h i)

/-- Heap mutation: available to the embedding, used by none of the translated
handlers. -/
def writeC (i : Nat) (v : CT) : St HeapC Unit :=
  fun h => (fun j => if j = i then v else h j, ())

def asMatCT : CT → Mat
  | .m x => x
  | _ => []

/-- Reference argument with heap-resident point arrays. -/
inductive RefM
  | featM (ft : Feat)
  | arrM (a : Nat)
  | tensM (a : Nat)

def refMTag : RefM → Ty
  | .featM ft => featTyOf ft
  | .arrM _ => .ndarrayT
  | .tensM _ => .tensorT

/-- Optional q_sqrt read from the heap when an address is supplied. -/
def readQOpt (qA : Option Nat) : St HeapC (Option CT) :=
  match qA with
  | some a => bindSt (readC a) fun qv => pureSt (some qv)
  | Option.none => pureSt Option.none

/-- Heap-instrumented array-keyed conditional: the tensor inputs (Xnew, X,
function, q_sqrt) live at heap addresses and are only read; the computation
itself is the pure condArr. -/
def condArrM (E : Ext) (k : KernelC) (xnewA xA fA : Nat) (fc foc : Bool)
    (qA : Option Nat) (w : Bool) : St HeapC (Mat × CT) :=
  bindSt (readC xA) fun X =>
  bindSt (readC xnewA) fun Xnew =>
  bindSt (readC fA) fun fv =>
  bindSt (readQOpt qA) fun q =>
  pureSt (condArr E (asMatCT Xnew) (asMatCT X) k (asMatCT fv) fc foc q w)

/-- Heap-instrumented feature-keyed conditional. -/
def condFeatM (E : Ext) (ft : Feat) (k : KernelC) (xnewA fA : Nat) (fc foc : Bool)
    (qA : Option Nat) (w : Bool) : St HeapC (Mat × CT) :=
  bindSt (readC xnewA) fun Xnew =>
  bindSt (readC fA) fun fv =>
  bindSt (readQOpt qA) fun q =>
  pureSt (condFeat E (asMatCT Xnew) ft k (asMatCT fv) fc foc q w)

/-- Heap-instrumented `conditional` entry point: dispatch on the reference's
runtime class, then run the selected handler over the heap. -/
def conditionalM (E : Ext) (ref : RefM) (k : KernelC) (xnewA fA : Nat)
    (fc foc : Bool) (qA : Option Nat) (w : Bool) :
    St HeapC (Except Err (Mat × CT)) :=
  match resolve conditionalCat [refMTag ref, .kernelT] with
  | Option.none => pureSt (.error .dispatchError)
  | some .featH =>
    match ref with
    | .featM ft => bindSt (condFeatM E ft k xnewA fA fc foc qA w) fun r => pureSt (.ok r)
    | _ => pureSt (.error .shapeError)
  | some .arrH =>
    match ref with
    | .arrM a => bindSt (condArrM E k xnewA a fA fc foc qA w) fun r => pureSt (.ok r)
    | .tensM a => bindSt (condArrM E k xnewA a fA fc foc qA w) fun r => pureSt (.ok r)
    | _ => pureSt (.error .shapeError)

/-- Heap of tensors on the expectation path. -/
def HeapE := Nat → Tn

def readE (i : Nat) : St HeapE Tn := fun h => (h, h i)

/-- Heap mutation on the expectation path: available, never used by the
translated handlers. -/
def writeE (i : Nat) (v : Tn) : St HeapE Unit :=
  fun h => (fun j => if j = i then v else h j, ())

def asR2 : Tn → Mat
  | .r2 x => x
  | _ => []

def asR3 : Tn → List Mat
  | .r3 x => x
  | _ => []

/-- Recursive callback over the heap, standing for the dispatched
`expectation` the fallback handlers re-invoke. -/
abbrev ExpFnM := Dist → TermV → TermV → Option Nat → St HeapE (Except Err Tn)

/-- Heap-instrumented DiagonalGaussian fallback (misc.py lines 97-102): read
p.mu and p.cov, construct the full Gaussian, re-invoke expectation. -/
def hDiagFallbackM (cb : ExpFnM) (muA covA : Nat) (t1 t2 : TermV)
    (nghp : Option Nat) : St HeapE (Except Err Tn) :=
  bindSt (readE muA) fun mu =>
  bindSt (readE covA) fun cov =>
  cb (.gaussian ⟨asR2 mu, diagEmbed (asR2 cov)⟩) t1 t2 nghp

/-- Heap-instrumented MarkovGaussian fallback (misc.py lines 107-123): read
p.mu and p.cov, slice per the absent term, re-invoke expectation. -/
def hMarkovM (cb : ExpFnM) (muA covDA covCA : Nat) (t1 t2 : TermV)
    (nghp : Option Nat) : St HeapE (Except Err Tn) :=
  bindSt (readE muA) fun mu =>
  bindSt (readE covDA) fun covD =>
  match t2 with
  | .absent => cb (.gaussian ⟨(asR2 mu).dropLast, (asR3 covD).dropLast⟩) t1 .absent nghp
  | _ =>
    match t1 with
    | .absent => cb (.gaussian ⟨(asR2 mu).drop 1, (asR3 covD).drop 1⟩) t2 .absent nghp
    | _ =>
      bindSt (readE covCA) fun covC =>
      cb (.markov ⟨asR2 mu, asR3 covD, asR3 covC⟩) t1 t2 nghp

lemma objTag_mem (t : TermV) : objTag t ∈ objTags := by
  cases t with
  | absent => simp [objTag, objTags]
  | mf m f => cases m <;> simp [objTag, meanTag, objTags]
  | kf k f => cases k <;> simp [objTag, kernTag, objTags]

lemma featTag_mem (t : TermV) : featTag t ∈ featTags := by
  cases t with
  | absent => simp [featTag, featTags]
  | mf m f =>
    cases f with
    | none => simp [featTag, featTags]
    | some ft => cases ft <;> simp [featTag, featTyOf, featTags]
  | kf k f =>
    cases f with
    | none => simp [featTag, featTags]
    | some ft => cases ft <;> simp [featTag, featTyOf, featTags]

lemma resolve_dg_tags (o1 f1 o2 f2 : Ty) (h1 : o1 ∈ objTags) (h2 : f1 ∈ featTags)
    (h3 : o2 ∈ objTags) (h4 : f2 ∈ featTags) :
    resolve expectationCat [.diagGaussianT, o1, f1, o2, f2] = some HId.diagFallback := by
  fin_cases h1 <;> fin_cases h2 <;> fin_cases h3 <;> fin_cases h4 <;> rfl

lemma resolve_dg (d : DiagGaussianD) (t1 t2 : TermV) :
    resolve expectationCat (keyOf (.diagonal d) t1 t2) = some HId.diagFallback :=
  resolve_dg_tags (objTag t1) (featTag t1) (objTag t2) (featTag t2)
    (objTag_mem t1) (featTag_mem t1) (objTag_mem t2) (featTag_mem t2)

lemma resolve_mg_t2absent_tags (o1 f1 : Ty) (h1 : o1 ∈ objTags) (h2 : f1 ∈ featTags) :
    resolve expectationCat [.markovGaussianT, o1, f1, .noneT, .noneT]
      = some HId.markovFallback := by
  fin_cases h1 <;> fin_cases h2 <;> rfl

lemma resolve_mg_t2absent (mg : MarkovGaussianD) (t : TermV) :
    resolve expectationCat (keyOf (.markov mg) t .absent) = some HId.markovFallback :=
  resolve_mg_t2absent_tags (objTag t) (featTag t) (objTag_mem t) (featTag_mem t)

lemma resolve_mg_t1absent_tags (o2 f2 : Ty) (h1 : o2 ∈ objTags) (h2 : f2 ∈ featTags) :
    resolve expectationCat [.markovGaussianT, .noneT, .noneT, o2, f2]
      = some HId.markovFallback := by
  fin_cases h1 <;> fin_cases h2 <;> rfl

lemma resolve_mg_t1absent (mg : MarkovGaussianD) (t : TermV) :
    resolve expectationCat (keyOf (.markov mg) .absent t) = some HId.markovFallback :=
  resolve_mg_t1absent_tags (objTag t) (featTag t) (objTag_mem t) (featTag_mem t)

lemma resolve_kzx_gauss (g : GaussianD) (k : Kern) (f : Feat) (m : MeanF) :
    resolve expectationCat (keyOf (.gaussian g) (.kf k (some f)) (.mf m Option.none))
      = some HId.kzxMeanT := by
  cases k <;> cases f <;> cases m <;> rfl

lemma resolve_kzx_markov (mg : MarkovGaussianD) (k : Kern) (f : Feat) (m : MeanF) :
    resolve expectationCat (keyOf (.markov mg) (.kf k (some f)) (.mf m Option.none))
      = some HId.kzxMeanT := by
  cases k <;> cases f <;> cases m <;> rfl

/-- One dispatch step of the DiagonalGaussian fallback: it converts p to the
full Gaussian with diagonal-embedded covariance and retries with the same
terms and nghp. -/
lemma dg_step (n : Nat) (d : DiagGaussianD) (t1 t2 : TermV) (nghp : Option Nat) :
    expectation (n + 1) (.diagonal d) t1 t2 nghp
      = expectation n (.gaussian ⟨d.mu, diagEmbed d.cov⟩) t1 t2 nghp := by
  simp only [expectation, resolve_dg d t1 t2]
  rfl

/-- The Gaussian Identity-mean guard fires for any non-Linear kernel with
InducingPoints and raises NotImplementedError. -/
lemma gauss_identity_guard (n : Nat) (g : GaussianD) (m : Nat) (Z : Mat)
    (nghp : Option Nat) :
    expectation (n + 1) (.gaussian g) (.mf .identity Option.none)
        (.kf (.otherK m) (some (.inducingPoints Z))) nghp
      = .error .notImplemented := by
  have hres : resolve expectationCat
      (keyOf (.gaussian g) (.mf .identity Option.none)
        (.kf (.otherK m) (some (.inducingPoints Z)))) = some HId.identityGuard := rfl
  simp only [expectation, hres]
  rfl

/-- The MarkovGaussian fallback with both terms present re-invokes the
dispatcher on the identical distribution and terms. -/
lemma hMarkov_both (exp : ExpFn) (mg : MarkovGaussianD) (t1 t2 : TermV)
    (nghp : Option Nat) (h1 : t1 ≠ .absent) (h2 : t2 ≠ .absent) :
    hMarkov exp mg t1 t2 nghp = exp (.markov mg) t1 t2 nghp := by
  cases t2 with
  | absent => exact absurd rfl h2
  | mf m f =>
      cases t1 with
      | absent => exact absurd rfl h1
      | mf _ _ => rfl
      | kf _ _ => rfl
  | kf k f =>
      cases t1 with
      | absent => exact absurd rfl h1
      | mf _ _ => rfl
      | kf _ _ => rfl

/-- When dispatch sends a both-terms MarkovGaussian call to the generic
fallback, the call consumes all fuel without returning: the embedding of
non-termination. -/
lemma markov_loop (mg : MarkovGaussianD) (t1 t2 : TermV) (nghp : Option Nat)
    (h1 : t1 ≠ .absent) (h2 : t2 ≠ .absent)
    (hres : resolve expectationCat (keyOf (.markov mg) t1 t2) = some HId.markovFallback) :
    ∀ n, expectation n (.markov mg) t1 t2 nghp = .error .fuelOut := by
  intro n
  induction n with
  | zero => rfl
  | succ k ih =>
    have hstep : expectation (k + 1) (.markov mg) t1 t2 nghp
        = hMarkov (expectation k) mg t1 t2 nghp := by
      simp only [expectation, hres]
      rfl
    rw [hstep, hMarkov_both _ _ _ _ _ h1 h2]
    exact ih

/-- Claim C2 counterexample: for a Gaussian distribution, an Identity mean
term and a (non-Linear kernel, InducingPoints) second term with no dedicated
Identity handler, the call does not fail with DispatchError as the claim
states: dispatch succeeds and selects the registered guard handler, which
raises NotImplementedError. -/
theorem claim_C2_cex :
    expectation 3 (.gaussian ⟨[[1]], [[[1]]]⟩) (.mf .identity Option.none)
        (.kf (.otherK 0) (some (.inducingPoints [[1]]))) Option.none
      = .error .notImplemented
  ∧ (Err.notImplemented ≠ Err.dispatchError) :=
  ⟨by decide, by decide⟩

/-- Claim C2 (amended): for a Gaussian distribution (and a DiagonalGaussian,
through its fallback conversion) with an Identity mean term and a (non-Linear
kernel, InducingPoints) pair for which no dedicated Identity handler is
registered, `expectation` fails immediately with NotImplementedError raised
by the registered guard handler — dispatch itself succeeds, the call never
falls back to the Linear mean-function handler and never recurses; for a
MarkovGaussian no guard is registered and the generic fallback re-dispatches
to itself, so the call does not terminate (fuel exhaustion at every fuel). -/
theorem claim_C2 (n : Nat) (g : GaussianD) (d : DiagGaussianD) (mg : MarkovGaussianD)
    (m : Nat) (Z : Mat) (nghp : Option Nat) :
    (expectation (n + 1) (.gaussian g) (.mf .identity Option.none)
        (.kf (.otherK m) (some (.inducingPoints Z))) nghp = .error .notImplemented)
  ∧ (expectation (n + 2) (.diagonal d) (.mf .identity Option.none)
        (.kf (.otherK m) (some (.inducingPoints Z))) nghp = .error .notImplemented)
  ∧ (∀ fuel, expectation fuel (.markov mg) (.mf .identity Option.none)
        (.kf (.otherK m) (some (.inducingPoints Z))) nghp = .error .fuelOut) := by
  refine ⟨gauss_identity_guard n g m Z nghp, ?_, ?_⟩
  · rw [dg_step]
    exact gauss_identity_guard n _ m Z nghp
  · exact markov_loop mg _ _ nghp (by simp) (by simp) rfl

/-- Claim C3: a MarkovGaussian expectation with term2 absent equals, at one
dispatch step less fuel, the plain-Gaussian expectation built from all but
the last step's means (p.mu[:-1]) and per-step covariances (p.cov[0, :-1]);
with term1 absent (and term2 a real term) it equals the plain-Gaussian
expectation built from all but the first step (p.mu[1:], p.cov[0, 1:]), the
term moving to the first position of the single-term call. -/
theorem claim_C3 (n : Nat) (mg : MarkovGaussianD) (t : TermV) (nghp : Option Nat) :
    (expectation (n + 1) (.markov mg) t .absent nghp
        = expectation n (.gaussian ⟨mg.mu.dropLast, mg.covDiag.dropLast⟩) t .absent nghp)
  ∧ (t ≠ .absent →
      expectation (n + 1) (.markov mg) .absent t nghp
        = expectation n (.gaussian ⟨mg.mu.drop 1, mg.covDiag.drop 1⟩) t .absent nghp) := by
  constructor
  · simp only [expectation, resolve_mg_t2absent mg t]
    rfl
  · intro ht
    simp only [expectation, resolve_mg_t1absent mg t]
    cases t with
    | absent => exact absurd rfl ht
    | mf m f => rfl
    | kf k f => rfl

/-- Claim C3 witness at a concrete two-step MarkovGaussian and a raw kernel
term. -/
theorem claim_C3_witness :
    (TermV.kf (.otherK 0) Option.none ≠ TermV.absent)
  ∧ (expectation 2 (.markov ⟨[[1], [2]], [[[3]], [[4]]], [[[0]]]⟩)
        .absent (.kf (.otherK 0) Option.none) Option.none
      = expectation 1 (.gaussian ⟨[[2]], [[[4]]]⟩)
        (.kf (.otherK 0) Option.none) .absent Option.none) :=
  ⟨by decide,
   (claim_C3 1 ⟨[[1], [2]], [[[3]], [[4]]], [[[0]]]⟩
      (.kf (.otherK 0) Option.none) Option.none).2 (by decide)⟩

/-- Claim C4: the DiagonalGaussian fallback is semantically transparent: a
DiagonalGaussian call equals (at one dispatch step less fuel) the same call
on the full Gaussian whose mean is p's mean and whose covariance is the
diagonal embedding tf.linalg.diag(p.cov) of the per-point variances, with the
same terms and nghp; consequently both calls evaluate to exactly the same
fuel-independent results. -/
theorem claim_C4 (n : Nat) (d : DiagGaussianD) (t1 t2 : TermV) (nghp : Option Nat) :
    (expectation (n + 1) (.diagonal d) t1 t2 nghp
        = expectation n (.gaussian ⟨d.mu, diagEmbed d.cov⟩) t1 t2 nghp)
  ∧ (∀ r, Evals (.diagonal d) t1 t2 nghp r ↔
        Evals (.gaussian ⟨d.mu, diagEmbed d.cov⟩) t1 t2 nghp r) := by
  refine ⟨dg_step n d t1 t2 nghp, fun r => ⟨?_, ?_⟩⟩
  · rintro ⟨hne, k, hk⟩
    refine ⟨hne, ?_⟩
    cases k with
    | zero => exact absurd hk.symm (by simpa using hne)
    | succ k' => exact ⟨k', by rw [← dg_step]; exact hk⟩
  · rintro ⟨hne, k, hk⟩
    exact ⟨hne, k + 1, by rw [dg_step]; exact hk⟩

/-- Claim C7: the handler registered for (Gaussian or MarkovGaussian, Kernel
with InducingFeature, MeanFunction with no feature) returns exactly the
transpose over the last two axes of the expectation with the two terms
swapped (nghp forwarded); and the handler registered for (Gaussian or
MarkovGaussian, Identity with no feature, Linear kernel with InducingPoints)
returns exactly the transpose of the swapped-order expectation (the source
passes no nghp there).  The equalities hold whether or not the inner
expectation is defined, errors mapping to the same errors. -/
theorem claim_C7 (n : Nat) (g : GaussianD) (mg : MarkovGaussianD) (m : MeanF)
    (k : Kern) (f : Feat) (kl : Nat) (Z : Mat) (nghp : Option Nat) :
    (expectation (n + 1) (.gaussian g) (.kf k (some f)) (.mf m Option.none) nghp
        = Except.map Tn.transposeLast2
            (expectation n (.gaussian g) (.mf m Option.none) (.kf k (some f)) nghp))
  ∧ (expectation (n + 1) (.markov mg) (.kf k (some f)) (.mf m Option.none) nghp
        = Except.map Tn.transposeLast2
            (expectation n (.markov mg) (.mf m Option.none) (.kf k (some f)) nghp))
  ∧ (expectation (n + 1) (.gaussian g) (.mf .identity Option.none)
          (.kf (.linK kl) (some (.inducingPoints Z))) nghp
        = Except.map Tn.transposeLast2
            (expectation n (.gaussian g) (.kf (.linK kl) (some (.inducingPoints Z)))
              (.mf .identity Option.none) Option.none))
  ∧ (expectation (n + 1) (.markov mg) (.mf .identity Option.none)
          (.kf (.linK kl) (some (.inducingPoints Z))) nghp
        = Except.map Tn.transposeLast2
            (expectation n (.markov mg) (.kf (.linK kl) (some (.inducingPoints Z)))
              (.mf .identity Option.none) Option.none)) := by
  refine ⟨?_, ?_, ?_, ?_⟩
  · simp only [expectation, resolve_kzx_gauss g k f m]
    rfl
  · simp only [expectation, resolve_kzx_markov mg k f m]
    rfl
  · rfl
  · rfl

/-- Claim C9: the MarkovGaussian fallback with both terms present re-invokes
`expectation` with the identical MarkovGaussian and the identical terms
(first conjunct, for any recursive callback), so when dispatch resolves that
re-invocation back to the same fallback entry the call never terminates: it
exhausts every fuel bound (second conjunct). -/
theorem claim_C9 (mg : MarkovGaussianD) (t1 t2 : TermV) (nghp : Option Nat)
    (h1 : t1 ≠ .absent) (h2 : t2 ≠ .absent)
    (hres : resolve expectationCat (keyOf (.markov mg) t1 t2) = some HId.markovFallback) :
    (∀ exp : ExpFn, hMarkov exp mg t1 t2 nghp = exp (.markov mg) t1 t2 nghp)
  ∧ (∀ n, expectation n (.markov mg) t1 t2 nghp = .error .fuelOut) :=
  ⟨fun exp => hMarkov_both exp mg t1 t2 nghp h1 h2,
   markov_loop mg t1 t2 nghp h1 h2 hres⟩

/-- Claim C9 witness: two kernel-with-feature terms on a concrete
MarkovGaussian resolve to the fallback and the call exhausts fuel 6. -/
theorem claim_C9_witness :
    expectation 6 (.markov ⟨[[1]], [[[1]]], []⟩)
      (.kf (.otherK 0) (some (.inducingPoints [[1]])))
      (.kf (.otherK 1) (some (.inducingPoints [[2]]))) Option.none
      = .error .fuelOut :=
  (claim_C9 ⟨[[1]], [[[1]]], []⟩
    (.kf (.otherK 0) (some (.inducingPoints [[1]])))
    (.kf (.otherK 1) (some (.inducingPoints [[2]]))) Option.none
    (by decide) (by decide) (by decide)).2 6

/-- Claim C10: the handler registered for (Gaussian or MarkovGaussian,
Identity, no feature, Linear kernel, InducingPoints) ignores its nghp
argument — its recursive expectation call passes the default None instead of
forwarding it — so for any recursive callback and any two nghp values the
results coincide (first conjunct), and the dispatched `expectation` calls at
those type combinations coincide for any two nghp values (remaining
conjuncts). -/
theorem claim_C10 :
    (∀ (exp : ExpFn) (p : Dist) (m : MeanF) (k : Kern) (f : Feat) (n1 n2 : Option Nat),
        hExKxz exp p m k f n1 = hExKxz exp p m k f n2)
  ∧ (∀ (n : Nat) (g : GaussianD) (kl : Nat) (Z : Mat) (n1 n2 : Option Nat),
        expectation (n + 1) (.gaussian g) (.mf .identity Option.none)
            (.kf (.linK kl) (some (.inducingPoints Z))) n1
          = expectation (n + 1) (.gaussian g) (.mf .identity Option.none)
            (.kf (.linK kl) (some (.inducingPoints Z))) n2)
  ∧ (∀ (n : Nat) (mg : MarkovGaussianD) (kl : Nat) (Z : Mat) (n1 n2 : Option Nat),
        expectation (n + 1) (.markov mg) (.mf .identity Option.none)
            (.kf (.linK kl) (some (.inducingPoints Z))) n1
          = expectation (n + 1) (.markov mg) (.mf .identity Option.none)
            (.kf (.linK kl) (some (.inducingPoints Z))) n2) :=
  ⟨fun _ _ _ _ _ _ _ => rfl, fun _ _ _ _ _ _ => rfl, fun _ _ _ _ _ _ => rfl⟩

lemma jitterEye_entry (j : ℚ) (M i jx : Nat) (hi : i < M) (hj : jx < M) :
    getQ2 (jitterEye j M) i jx = if i = jx then j else 0 := by
  simp only [getQ2, getQ, jitterEye, List.getD_eq_getElem?_getD, List.getElem?_map,
    List.getElem?_range hi, Option.map_some', Option.getD_some, List.getElem?_range hj]

lemma matAdd_entry (A B : Mat) (i jx : Nat)
    (hiA : i < A.length) (hiB : i < B.length)
    (hjA : jx < (A.getD i []).length) (hjB : jx < (B.getD i []).length) :
    getQ2 (matAddQ A B) i jx = getQ2 A i jx + getQ2 B i jx := by
  rw [List.getD_eq_getElem A [] hiA] at hjA
  rw [List.getD_eq_getElem B [] hiB] at hjB
  simp only [getQ2, getQ, matAddQ, List.getD_eq_getElem?_getD]
  rw [List.getElem?_zipWith']
  rw [List.getElem?_eq_getElem hiA, List.getElem?_eq_getElem hiB]
  simp only [Option.some_bind, Option.map_some', Option.getD_some]
  rw [List.getElem?_zipWith']
  rw [List.getElem?_eq_getElem hjA, List.getElem?_eq_getElem hjB]
  simp [List.getD_eq_getElem A [] hiA, List.getD_eq_getElem B [] hiB,
    List.getElem?_eq_getElem hjA, List.getElem?_eq_getElem hjB]

lemma matAdd_jitter_entry (A : Mat) (j : ℚ) (M i jx : Nat)
    (hA : A.length = M) (hrow : ∀ r ∈ A, r.length = M) (hi : i < M) (hj : jx < M) :
    getQ2 (matAddQ A (jitterEye j M)) i jx = getQ2 A i jx + (if i = jx then j else 0) := by
  have hiA : i < A.length := by omega
  have hjA : jx < (A.getD i []).length := by
    rw [List.getD_eq_getElem A [] hiA, hrow A[i] (List.getElem_mem hiA)]
    omega
  have hiB : i < (jitterEye j M).length := by
    simp only [jitterEye, List.length_map, List.length_range]
    omega
  have hjB : jx < ((jitterEye j M).getD i []).length := by
    rw [List.getD_eq_getElem _ [] hiB]
    simp only [jitterEye, List.getElem_map, List.length_map, List.length_range]
    omega
  rw [matAdd_entry A _ i jx hiA hiB hjA hjB, jitterEye_entry j M i jx hi hj]

/-- Claim C1 counterexample: an array-keyed `conditional` call with
full_output_cov true returns the variance exactly as produced by
base_conditional, although Output-Shape Expansion at these flags would have
changed it — so the array-keyed variant does not apply Output-Shape
Expansion before returning, contradicting the claim. -/
theorem claim_C1_cex :
    conditionalC cexExt [[0]] (.arr [[0]]) cexKern [[0]] false true Option.none false
      = .ok ([[0]], CT.m [[1, 2]])
  ∧ expandIndependentOutputs (CT.m [[1, 2]]) false true ≠ CT.m [[1, 2]] := by
  exact ⟨rfl, by decide⟩

/-- Claim C1 (amended): only the feature-keyed `conditional` variant applies
Output-Shape Expansion, to the variance term only (the mean is returned
unexpanded); the array-keyed variant returns the mean and variance produced
by base_conditional without applying Output-Shape Expansion to either. -/
theorem claim_C1 (E : Ext) (Xnew X : Mat) (ft : Feat) (k : KernelC) (f : Mat)
    (fc foc : Bool) (q : Option CT) (w : Bool) :
    (conditionalC E Xnew (.feat ft) k f fc foc q w
        = .ok ((E.bc (E.kuf ft k Xnew) (E.kuu ft k E.jitter) (k.kFlag Xnew fc) f fc q w).1,
               expandIndependentOutputs
                 (E.bc (E.kuf ft k Xnew) (E.kuu ft k E.jitter) (k.kFlag Xnew fc) f fc q w).2
                 fc foc))
  ∧ (conditionalC E Xnew (.arr X) k f fc foc q w
      = .ok (E.bc (k.kXY X Xnew) (matAddQ (k.kXX X) (jitterEye E.jitter X.length))
              (k.kFlag Xnew fc) f fc q w)) := by
  constructor
  · cases ft <;> rfl
  · rfl

/-- Claim C5: the array-keyed variant delegates to base_conditional the
reference-prior covariance kernel(X) + default_jitter_eye(M), the
cross-covariance kernel(X, Xnew) and the query covariance
kernel(Xnew, full=full_cov); and entrywise, for a well-shaped MxM kernel
matrix, the delegated reference covariance is the kernel evaluation plus the
process-wide default jitter on the diagonal only. -/
theorem claim_C5 (E : Ext) (Xnew X : Mat) (k : KernelC) (f : Mat) (fc foc : Bool)
    (q : Option CT) (w : Bool)
    (hA : (k.kXX X).length = X.length)
    (hrow : ∀ r ∈ k.kXX X, r.length = X.length) :
    (conditionalC E Xnew (.arr X) k f fc foc q w
        = .ok (E.bc (k.kXY X Xnew) (matAddQ (k.kXX X) (jitterEye E.jitter X.length))
                (k.kFlag Xnew fc) f fc q w))
  ∧ (∀ i j, i < X.length → j < X.length →
      getQ2 (matAddQ (k.kXX X) (jitterEye E.jitter X.length)) i j
        = getQ2 (k.kXX X) i j + (if i = j then E.jitter else 0)) := by
  refine ⟨rfl, fun i j hi hj => ?_⟩
  exact matAdd_jitter_entry (k.kXX X) E.jitter X.length i j hA hrow hi hj

/-- Claim C5 witness at a concrete 1x1 reference set, with base_conditional
returning the covariances it received. -/
theorem claim_C5_witness :
    (conditionalC wExt [[1]] (.arr [[0]]) wKern [[2]] false false Option.none false
        = .ok (wExt.bc (wKern.kXY [[0]] [[1]])
                (matAddQ (wKern.kXX [[0]]) (jitterEye wExt.jitter ([[(0 : ℚ)]]).length))
                (wKern.kFlag [[1]] false) [[2]] false Option.none false))
  ∧ getQ2 (matAddQ (wKern.kXX [[0]]) (jitterEye wExt.jitter ([[(0 : ℚ)]]).length)) 0 0
      = getQ2 (wKern.kXX [[0]]) 0 0 + (if (0 : Nat) = 0 then wExt.jitter else 0) :=
  ⟨(claim_C5 wExt [[1]] [[0]] wKern [[2]] false false Option.none false
      (by decide) (by decide)).1,
   (claim_C5 wExt [[1]] [[0]] wKern [[2]] false false Option.none false
      (by decide) (by decide)).2 0 0 (by decide) (by decide)⟩

/-- Claim C6: the `conditional` entry point selects its handler from the
runtime class of the reference argument: any inducing feature resolves to
the feature-keyed variant, a numpy array or a tensorflow tensor resolves to
the array-keyed variant; the selected handler receives all eight arguments
(Xnew, reference, kernel, function, full_cov, full_output_cov, q_sqrt,
white) unchanged; and the feature-keyed variant computes its covariances
through the Kuu and Kuf collaborators. -/
theorem claim_C6 (E : Ext) (Xnew X Y : Mat) (ft : Feat) (k : KernelC) (f : Mat)
    (fc foc : Bool) (q : Option CT) (w : Bool) :
    (resolve conditionalCat [refTag (.feat ft), .kernelT] = some CId.featH)
  ∧ (resolve conditionalCat [refTag (.arr X), .kernelT] = some CId.arrH)
  ∧ (resolve conditionalCat [refTag (.tens Y), .kernelT] = some CId.arrH)
  ∧ (conditionalC E Xnew (.feat ft) k f fc foc q w
      = .ok (condFeat E Xnew ft k f fc foc q w))
  ∧ (conditionalC E Xnew (.arr X) k f fc foc q w
      = .ok (condArr E Xnew X k f fc foc q w))
  ∧ (conditionalC E Xnew (.tens Y) k f fc foc q w
      = .ok (condArr E Xnew Y k f fc foc q w))
  ∧ (condFeat E Xnew ft k f fc foc q w
      = ((E.bc (E.kuf ft k Xnew) (E.kuu ft k E.jitter) (k.kFlag Xnew fc) f fc q w).1,
         expandIndependentOutputs
           (E.bc (E.kuf ft k Xnew) (E.kuu ft k E.jitter) (k.kFlag Xnew fc) f fc q w).2
           fc foc)) := by
  refine ⟨?_, rfl, rfl, ?_, rfl, rfl, rfl⟩
  · cases ft <;> rfl
  · cases ft <;> rfl

lemma preserves_pure {σ α : Type} (a : α) : Preserves (pureSt (σ := σ) a) :=
  fun _ => rfl

lemma preserves_bind {σ α β : Type} {x : St σ α} {g : α → St σ β}
    (hx : Preserves x) (hg : ∀ a, Preserves (g a)) : Preserves (bindSt x g) := by
  intro h
  show (g (x h).2 (x h).1).1 = h
  rw [hx h]
  exact hg _ h

lemma preserves_readC (i : Nat) : Preserves (readC i) := fun _ => rfl

lemma preserves_readE (i : Nat) : Preserves (readE i) := fun _ => rfl

lemma preserves_readQOpt (qA : Option Nat) : Preserves (readQOpt qA) := by
  cases qA with
  | none => exact preserves_pure _
  | some a => exact preserves_bind (preserves_readC a) fun _ => preserves_pure _

lemma preserves_condArrM (E : Ext) (k : KernelC) (xnewA xA fA : Nat)
    (fc foc : Bool) (qA : Option Nat) (w : Bool) :
    Preserves (condArrM E k xnewA xA fA fc foc qA w) :=
  preserves_bind (preserves_readC _) fun _ =>
  preserves_bind (preserves_readC _) fun _ =>
  preserves_bind (preserves_readC _) fun _ =>
  preserves_bind (preserves_readQOpt _) fun _ => preserves_pure _

lemma preserves_condFeatM (E : Ext) (ft : Feat) (k : KernelC) (xnewA fA : Nat)
    (fc foc : Bool) (qA : Option Nat) (w : Bool) :
    Preserves (condFeatM E ft k xnewA fA fc foc qA w) :=
  preserves_bind (preserves_readC _) fun _ =>
  preserves_bind (preserves_readC _) fun _ =>
  preserves_bind (preserves_readQOpt _) fun _ => preserves_pure _

/-- Claim C8: the conditional entry point (either variant) and the
DiagonalGaussian and MarkovGaussian fallback handlers, run over an explicit
mutable heap holding their tensor inputs, leave every heap address unchanged
— they only read their inputs and construct new values — provided the
re-invoked expectation callback does so as well.  Heap mutation (writeC,
writeE) is expressible in this model and is used by none of the translated
code. -/
theorem claim_C8 (E : Ext) (ref : RefM) (k : KernelC) (xnewA fA : Nat)
    (fc foc : Bool) (qA : Option Nat) (w : Bool) (cb : ExpFnM)
    (hcb : ∀ p t1 t2 g, Preserves (cb p t1 t2 g))
    (muA covA covDA covCA : Nat) (t1 t2 : TermV) (nghp : Option Nat) :
    Preserves (conditionalM E ref k xnewA fA fc foc qA w)
  ∧ Preserves (hDiagFallbackM cb muA covA t1 t2 nghp)
  ∧ Preserves (hMarkovM cb muA covDA covCA t1 t2 nghp) := by
  refine ⟨?_, ?_, ?_⟩
  · cases ref with
    | featM ft =>
        cases ft <;>
          exact preserves_bind (preserves_condFeatM _ _ _ _ _ _ _ _ _)
            fun _ => preserves_pure _
    | arrM a =>
        exact preserves_bind (preserves_condArrM _ _ _ _ _ _ _ _ _)
          fun _ => preserves_pure _
    | tensM a =>
        exact preserves_bind (preserves_condArrM _ _ _ _ _ _ _ _ _)
          fun _ => preserves_pure _
  · exact preserves_bind (preserves_readE _) fun _ =>
      preserves_bind (preserves_readE _) fun _ => hcb _ _ _ _
  · refine preserves_bind (preserves_readE _) fun mu =>
      preserves_bind (preserves_readE _) fun covD => ?_
    cases t2 with
    | absent => exact hcb _ _ _ _
    | mf m f =>
        cases t1 with
        | absent => exact hcb _ _ _ _
        | mf _ _ => exact preserves_bind (preserves_readE _) fun _ => hcb _ _ _ _
        | kf _ _ => exact preserves_bind (preserves_readE _) fun _ => hcb _ _ _ _
    | kf k2 f =>
        cases t1 with
        | absent => exact hcb _ _ _ _
        | mf _ _ => exact preserves_bind (preserves_readE _) fun _ => hcb _ _ _ _
        | kf _ _ => exact preserves_bind (preserves_readE _) fun _ => hcb _ _ _ _

/-- Claim C8 witness: a concrete heap is returned unchanged by the
DiagonalGaussian fallback run with a heap-preserving callback. -/
theorem claim_C8_witness :
    ((hDiagFallbackM (fun _ _ _ _ => pureSt (.error .fuelOut)) 0 1
        TermV.absent TermV.absent Option.none) (fun _ => Tn.r2 [])).1
      = (fun _ => Tn.r2 []) :=
  (claim_C8 cexExt (.featM (.otherFeat 0)) cexKern 0 1 false false Option.none false
      (fun _ _ _ _ => pureSt (.error .fuelOut)) (fun _ _ _ _ _ => rfl)
      0 1 2 3 TermV.absent TermV.absent Option.none).2.1 (fun _ => Tn.r2 [])

end GPflow
